import Mathlib

/-!
# Verification of the netx `httpx.ReverseProxy` dispatch logic

A shallow embedding of `src/httpx/proxy.go` (package `httpx` of the netx
repository).  HTTP headers are modelled as association lists from canonical
header names to ordered value lists, mirroring Go's `http.Header`
(`map[string][]string`).  The observable behaviour of `ServeHTTP` is modelled
as a pure function from an inbound request to a dispatch `Action`; the raw
I/O of the upgrade path (`serveUpgrade`) is modelled as the list of
externally visible events it performs, in program order.

Helper functions of the repository that live outside `proxy.go`
(`copyHeader`, `deleteHopFields`, `translateXForwarded`, `addForwarded`,
`addVia`, `maxForwards`, `connectionUpgrade`, `netx.SplitNetAddr`) are
modelled from the specification, as marked on each definition.
-/

namespace Httpx

/-- A header collection: ordered association list from canonical header
names to ordered lists of values, mirroring Go's `http.Header`
(`map[string][]string`). -/
abbrev Header := List (String × List String)

namespace Header

/-- All values stored under key `k` (first matching entry), `[]` if absent.
Mirrors indexing `h[k]` on a Go `http.Header`. -/
def getAll : Header → String → List String
  | [], _ => []
  | (k', vs) :: t, k => if k' = k then vs else getAll t k

/-- First value under key `k`, `""` if absent: Go's `http.Header.Get`. -/
def get (h : Header) (k : String) : String :=
  match getAll h k with
  | [] => ""
  | v :: _ => v

/-- Whether key `k` is present: the `_, ok := h[k]` idiom on a Go map. -/
def hasKey : Header → String → Bool
  | [], _ => false
  | (k', _) :: t, k => k' = k || hasKey t k

/-- Remove every entry for key `k`: Go's `http.Header.Del`. -/
def del (h : Header) (k : String) : Header :=
  h.filter (fun kv => kv.1 ≠ k)

/-- Replace the values of key `k` by the single value `v`:
Go's `http.Header.Set`. -/
def set (h : Header) (k v : String) : Header :=
  del h k ++ [(k, [v])]

/-- Replace the values of key `k` by the list `vs`: the Go map assignment
`h[k] = vs`. -/
def setVals (h : Header) (k : String) (vs : List String) : Header :=
  del h k ++ [(k, vs)]

/-- Append value `v` under key `k` (to the first matching entry, or as a new
entry at the end): Go's `http.Header.Add`. -/
def add : Header → String → String → Header
  | [], k, v => [(k, [v])]
  | (k', vs) :: t, k, v =>
      if k' = k then (k', vs ++ [v]) :: t else (k', vs) :: add t k v

end Header

/-- Splits a character list at every occurrence of `c`, accumulating the
current field in reverse. -/
def splitOnCharAux (c : Char) : List Char → List Char → List String
  | [], acc => [String.mk acc.reverse]
  | x :: xs, acc =>
      if x = c then String.mk acc.reverse :: splitOnCharAux c xs []
      else splitOnCharAux c xs (x :: acc)

/-- Splits a string at every occurrence of the character `c` (the
behaviour of Go's `strings.Split` with a one-character separator). -/
def splitOnChar (c : Char) (s : String) : List String :=
  splitOnCharAux c s.data []

/-- Drops leading space characters. -/
def dropSpaces : List Char → List Char
  | ' ' :: xs => dropSpaces xs
  | xs => xs

/-- Removes leading and trailing spaces (the whitespace trimming applied
to header tokens). -/
def trimStr (s : String) : String :=
  String.mk (dropSpaces (dropSpaces s.data.reverse).reverse)

/-- The value of a decimal digit character, `none` otherwise. -/
def digitVal (c : Char) : Option Nat :=
  if '0' ≤ c ∧ c ≤ '9' then some (c.toNat - '0'.toNat) else none

/-- Parses a digit run into a natural number, `none` on any non-digit. -/
def parseNatAux : List Char → Nat → Option Nat
  | [], acc => some acc
  | c :: cs, acc =>
      match digitVal c with
      | some d => parseNatAux cs (acc * 10 + d)
      | none => none

/-- Models Go's `strconv.Atoi`: an optional sign followed by at least one
decimal digit; anything else (including the empty string) is an error,
modelled as `none`. -/
def parseInt (s : String) : Option Int :=
  match s.data with
  | [] => none
  | '-' :: rest =>
      if rest.isEmpty then none
      else (parseNatAux rest 0).map (fun n => -(n : Int))
  | '+' :: rest =>
      if rest.isEmpty then none
      else (parseNatAux rest 0).map (fun n => (n : Int))
  | l => (parseNatAux l 0).map (fun n => (n : Int))

/-- Joins strings with a separator (the behaviour of `strings.Join`). -/
def joinStr (sep : String) : List String → String
  | [] => ""
  | [s] => s
  | s :: rest => s ++ sep ++ joinStr sep rest

/-- A request URL as used by the proxy: scheme, host (possibly with port)
and path. -/
structure URL where
  scheme : String
  host : String
  path : String := "/"
  deriving Repr, DecidableEq

/-- The slice of Go's `http.Request` that the dispatch logic of
`ServeHTTP` reads: method, URL, `Host` field, header map, protocol string,
remote peer address, and the local listener address found in the request
context (`""` when absent). -/
structure Request where
  method : String
  url : URL
  host : String
  header : Header
  proto : String := "HTTP/1.1"
  remoteAddr : String
  localAddr : String
  deriving Repr, DecidableEq

/-- Modelled from Go's `net.SplitHostPort`: split `"host:port"` at the last
colon; a string with no colon yields an error, modelled as `none` (the call
sites of `proxy.go` discard the error, leaving host and port `""`). -/
def splitHostPort (s : String) : Option (String × String) :=
  match splitOnChar ':' s with
  | [] => none
  | [_] => none
  | parts => some (joinStr ":" parts.dropLast, parts.getLastD "")

/-- The port component of a `host:port` string, `""` when the split fails:
the `_, port, _ := net.SplitHostPort(...)` idiom. -/
def portOf (s : String) : String :=
  match splitHostPort s with
  | some hp => hp.2
  | none => ""

/-- The host component of a `host:port` string, `""` when the split fails. -/
def hostOf (s : String) : String :=
  match splitHostPort s with
  | some hp => hp.1
  | none => ""

/-- Modelled from the spec: `netx.SplitNetAddr` (repository code outside
`src/`).  The local listener address "may carry a transport tag indicating
the listener terminates TLS"; the tag is the part before `"://"`, `""` when
no tag is present. -/
def splitNetAddrAux (s : String) : List Char → List Char → String × String
  | ':' :: '/' :: '/' :: rest, acc => (String.mk acc.reverse, String.mk rest)
  | x :: xs, acc => splitNetAddrAux s xs (x :: acc)
  | [], _ => ("", s)

/-- Splits a network address into its transport tag and the rest, at the
first occurrence of the separator. -/
def splitNetAddr (s : String) : String × String :=
  splitNetAddrAux s s.data []

/-- `guessScheme` from `src/httpx/proxy.go` lines 303–314: `https` when the
local address carries the `tls` transport tag, otherwise decided by the port
of the second argument (`""`/`"80"` ⇒ `http`, `"443"` ⇒ `https`, any other
⇒ `http`). -/
def guessScheme (localAddr remoteAddr : String) : String :=
  if (splitNetAddr localAddr).1 = "tls" then "https"
  else
    let port := portOf remoteAddr
    if port = "" ∨ port = "80" then "http"
    else if port = "443" then "https"
    else "http"

/-- The fixed hop-by-hop header names of the HopByHopSet. -/
def hopFields : List String :=
  ["Connection", "Keep-Alive", "Proxy-Authenticate", "Proxy-Authorization",
   "TE", "Trailers", "Transfer-Encoding", "Upgrade"]

/-- The header names listed inside the `Connection` header's value:
comma-separated tokens, whitespace-trimmed. -/
def connectionTokens (h : Header) : List String :=
  (Header.getAll h "Connection").flatMap
    (fun v => (splitOnChar ',' v).map trimStr)

/-- The full set of hop-by-hop names for a given header collection: the
fixed set plus the names listed in its `Connection` value. -/
def hopFieldNames (h : Header) : List String :=
  hopFields ++ connectionTokens h

/-- Modelled from the spec: `deleteHopFields` (repository code outside
`src/`), §4.1 — "given a header multimap, remove every name in HopByHopSet,
including names listed as values of a `Connection` header". -/
def deleteHopFields (h : Header) : Header :=
  h.filter (fun kv => ¬ (hopFieldNames h).contains kv.1)

/-- Modelled from the spec: `copyHeader` (repository code outside `src/`),
§4.4 step 1 — "deep-copy the header collection (owned copy, not shared)";
in a pure model the owned copy is the value itself. -/
def copyHeader (src : Header) : Header := src

/-- Modelled from the spec: `translateXForwarded` (repository code outside
`src/`), §4.2 — "if headers contain no `Forwarded` key, synthesize one
`ForwardedEntry` hop from `X-Forwarded-For`, `X-Forwarded-Host`,
`X-Forwarded-Proto` (whichever are present; absent fields are simply
omitted from the hop, not defaulted)".  The caller in `proxy.go` performs
the `Forwarded`-absence check; this function synthesizes the hop.  When no
legacy header is present there is nothing to synthesize. -/
def legacyForwardedFields (h : Header) : List String :=
  (if Header.get h "X-Forwarded-For" ≠ "" then
     ["for=" ++ Header.get h "X-Forwarded-For"] else []) ++
  (if Header.get h "X-Forwarded-Host" ≠ "" then
     ["host=" ++ Header.get h "X-Forwarded-Host"] else []) ++
  (if Header.get h "X-Forwarded-Proto" ≠ "" then
     ["proto=" ++ Header.get h "X-Forwarded-Proto"] else [])

/-- Modelled from the spec (continued): the synthesized hop is appended as
one `Forwarded` value; with no legacy header present there is nothing to
synthesize. -/
def translateXForwarded (h : Header) : Header :=
  if (legacyForwardedFields h).isEmpty then h
  else Header.add h "Forwarded" (joinStr ";" (legacyForwardedFields h))

/-- The fresh `Forwarded` hop appended for this proxy instance, per spec
§4.2: "append one hop record with `proto=scheme`, `for=remoteAddr`'s host
part, `by=localAddr`"; empty fields are omitted (best-effort formatting). -/
def forwardedEntry (scheme remoteAddr localAddr : String) : String :=
  let fields :=
    (if scheme ≠ "" then ["proto=" ++ scheme] else []) ++
    (if hostOf remoteAddr ≠ "" then ["for=" ++ hostOf remoteAddr] else []) ++
    (if localAddr ≠ "" then ["by=" ++ localAddr] else [])
  joinStr ";" fields

/-- Modelled from the spec: `addForwarded` (repository code outside `src/`),
§4.2 — append one hop record for this proxy to the `Forwarded` header. -/
def addForwarded (h : Header) (scheme remoteAddr localAddr : String) : Header :=
  Header.add h "Forwarded" (forwardedEntry scheme remoteAddr localAddr)

/-- Modelled from the spec: `addVia` (repository code outside `src/`),
§4.2 — append `"<protoVersion> <localAddr-or-pseudonym>"` to the `Via`
header, joined with any prior value. -/
def addVia (h : Header) (protoVersion localAddr : String) : Header :=
  Header.add h "Via"
    (protoVersion ++ " " ++ (if localAddr = "" then "unknown" else localAddr))

/-- Modelled from the spec: `protoVersion` (repository code outside `src/`)
— the protocol version of the inbound request, used for the `Via` entry. -/
def protoVersion (req : Request) : String := req.proto

/-- Modelled from the spec: `maxForwards` (repository code outside `src/`),
§4.3 — "reads `Max-Forwards` as an integer"; an absent or unparsable header
is an error. -/
def maxForwards (h : Header) : Except Unit Int :=
  match parseInt (Header.get h "Max-Forwards") with
  | some n => Except.ok n
  | none => Except.error ()

/-- Modelled from the spec: `connectionUpgrade` (repository code outside
`src/`), §4.5 — "inbound `Connection` header requests an upgrade (non-empty
`Upgrade` token)": the value of the `Upgrade` header when `Connection`
lists the `Upgrade` token, `""` otherwise. -/
def connectionUpgrade (h : Header) : String :=
  if (connectionTokens h).contains "Upgrade" then Header.get h "Upgrade"
  else ""

/-- The dispatch decision of `ServeHTTP`: either a purely local response
(status code, no network I/O), or one of the network-facing paths, each
carrying the fully built outbound request.  Dialing and the transport
collaborator are invoked only on the `connect`, `upgrade` and `forward`
paths. -/
inductive Action where
  /-- A local response with the given status (400 Bad Request, …);
  no dial and no transport call occur. -/
  | respond (status : Nat)
  /-- `serveCONNECT` is entered with the outbound request. -/
  | connect (out : Request)
  /-- `serveTRACE` loopback: local 200, body a dump of `out`. -/
  | traceLoopback (out : Request)
  /-- `serveOPTIONS` loopback: local empty 200. -/
  | optionsLoopback (out : Request)
  /-- `serveUpgrade` is entered with the outbound request. -/
  | upgrade (out : Request)
  /-- Normal forwarding: the transport's `RoundTrip` is invoked on `out`. -/
  | forward (out : Request)
  deriving Repr, DecidableEq

/-- The outbound request carried by a network-facing or loopback action,
`none` for a purely local status response. -/
def Action.outreq? : Action → Option Request
  | .respond _ => none
  | .connect out => some out
  | .traceLoopback out => some out
  | .optionsLoopback out => some out
  | .upgrade out => some out
  | .forward out => some out

/-- The header pipeline of `ServeHTTP` (`src/httpx/proxy.go` lines 85–100):
copy the inbound headers, strip hop-by-hop fields, synthesize a `Forwarded`
entry from the legacy `X-Forwarded-*` headers when none is present, then
append this proxy's `Forwarded` hop and a `Via` entry. -/
def injectedHeaders (req : Request) (scheme : String) : Header :=
  let h0 := deleteHopFields (copyHeader req.header)
  let h1 := if Header.hasKey h0 "Forwarded" then h0 else translateXForwarded h0
  let h2 := addForwarded h1 scheme req.remoteAddr req.localAddr
  addVia h2 (protoVersion req) req.localAddr

/-- The outbound URL host (`src/httpx/proxy.go` lines 73–75): when the
request URL carries no host, it is defaulted from the inbound `Host`
field. -/
def resolvedHost (req : Request) : String :=
  if req.url.host = "" then req.host else req.url.host

/-- The outbound URL scheme (`src/httpx/proxy.go` lines 79–81): a missing
scheme is guessed from the local listener address and the *original*
(pre-defaulting) request URL host. -/
def resolvedScheme (req : Request) : String :=
  if req.url.scheme = "" then guessScheme req.localAddr req.url.host
  else req.url.scheme

/-- The normalized outbound request built by `ServeHTTP`
(`src/httpx/proxy.go` lines 62–100): protocol pinned to HTTP/1.1, URL host
defaulted, URL scheme resolved, headers copied, hop-stripped and extended
with `Forwarded` and `Via`. -/
def normalizedRequest (req : Request) : Request :=
  { req with
    url := { req.url with scheme := resolvedScheme req, host := resolvedHost req }
    header := injectedHeaders req (resolvedScheme req)
    proto := "HTTP/1.1" }

/-- The Max-Forwards guard of `ServeHTTP` (`src/httpx/proxy.go` lines
106–117), applied to TRACE and OPTIONS requests: `none` means the request
is answered locally (header absent/unparsable, or the value decrements to
exactly zero); otherwise the request goes on, with the decremented value
written — note — under the key `"Max-Forward"` (line 117).  Any other
method passes through unchanged. -/
def maxForwardsGuard (out : Request) : Option Request :=
  if out.method = "TRACE" ∨ out.method = "OPTIONS" then
    match maxForwards out.header with
    | .error _ => none
    | .ok max =>
        if max - 1 = 0 then none
        else some { out with
          header := Header.set out.header "Max-Forward" (toString (max - 1)) }
  else some out

/-- The header rewrite of the upgrade branch (`src/httpx/proxy.go` lines
124–125): `Connection: Upgrade` and the original `Upgrade` token are set on
the outbound request after the hop-by-hop strip. -/
def setUpgradeHeaders (out : Request) (upgrade : String) : Request :=
  { out with
    header := Header.set (Header.set out.header "Connection" "Upgrade")
                "Upgrade" upgrade }

/-- The dispatch logic of `ReverseProxy.ServeHTTP` (`src/httpx/proxy.go`
lines 56–150), as a pure function from the inbound request to the action
taken.  Faithful to the source order: normalize the request, reject an
empty resolved host with 400 before any network I/O, then branch on
CONNECT / the TRACE-OPTIONS Max-Forwards guard / upgrade (tested on the
ORIGINAL inbound headers, line 123) / normal forward. -/
def serveHTTP (req : Request) : Action :=
  if resolvedHost req = "" then .respond 400
  else
    let out := normalizedRequest req
    if out.method = "CONNECT" then .connect out
    else
      match maxForwardsGuard out with
      | none =>
          if out.method = "TRACE" then .traceLoopback out
          else .optionsLoopback out
      | some out' =>
          let upg := connectionUpgrade req.header
          if upg ≠ "" then .upgrade (setUpgradeHeaders out' upg)
          else .forward out'

/-- Response-header handling of the normal-forward path
(`src/httpx/proxy.go` lines 141–142 and 148–149): hop-by-hop fields are
removed from the backend response's headers (and trailers) before they are
copied to the client. -/
def forwardResponseHeaders (resHeader : Header) : Header :=
  deleteHopFields resHeader

/-- The slice of a backend response that `serveUpgrade` inspects: status
code and header collection. -/
structure UResp where
  status : Nat
  header : Header
  deriving Repr, DecidableEq

/-- Response-header handling of the upgrade path (`src/httpx/proxy.go`
lines 255–260): hop-by-hop fields are removed, but a present `Upgrade`
header is re-added afterwards together with `Connection: Upgrade`. -/
def upgradeResponseHeaders (resHeader : Header) : Header :=
  let upgrade := Header.getAll resHeader "Upgrade"
  let h := deleteHopFields resHeader
  if upgrade.isEmpty then h
  else Header.setVals (Header.setVals h "Upgrade" upgrade) "Connection" ["Upgrade"]

/-- The externally visible events of `serveUpgrade`, in program order. -/
inductive UEvent where
  /-- the backend dial -/
  | dial
  /-- headers staged for the client response -/
  | writeHeaders (h : Header)
  /-- `WriteHeader(status)`: the status line is committed -/
  | writeStatus (status : Nat)
  /-- the response body is streamed to the client -/
  | writeBody
  /-- the backend connection is closed -/
  | closeBackend
  /-- the hijacked client connection is closed -/
  | closeFrontend
  /-- `Hijack()`: exclusive raw control of the client connection is taken -/
  | hijack
  /-- buffered bytes for the client are flushed -/
  | flush
  /-- a TunnelSession relays bytes between client and backend -/
  | tunnel
  deriving Repr, DecidableEq

/-- The control flow of `serveUpgrade` (`src/httpx/proxy.go` lines
225–299) as the list of events it performs, parameterised by the outcomes
of its external collaborators: whether the dial succeeds, the result of the
one-shot `RoundTrip` on the dedicated backend connection (`none` for a
transport error), whether `Hijack` succeeds, and whether the flush to the
client succeeds.  Deferred closes run last-in-first-out on return. -/
def serveUpgrade (dialOk : Bool) (rt : Option UResp)
    (hijackOk flushOk : Bool) : List UEvent :=
  if ¬dialOk then [.dial, .writeStatus 502]
  else
    match rt with
    | none => [.dial, .writeStatus 502, .closeBackend]
    | some res =>
        let pre : List UEvent :=
          [.dial, .writeHeaders (upgradeResponseHeaders res.header),
           .writeStatus res.status, .writeBody]
        if res.status ≠ 101 then pre ++ [.closeBackend]
        else if ¬hijackOk then pre ++ [.writeStatus 500, .closeBackend]
        else if ¬flushOk then pre ++ [.hijack, .closeFrontend, .closeBackend]
        else pre ++ [.hijack, .flush, .tunnel, .closeFrontend, .closeBackend]

/-- Scans an upgrade event trace and checks that every `hijack` event is
strictly preceded by a `writeHeaders`, a `writeStatus` and a `writeBody`
event: the client-visible response is fully written before any takeover
attempt.  The three flags record which of the writes have been seen. -/
def writesPrecedeHijack (hdr st bod : Bool) : List UEvent → Bool
  | [] => true
  | .writeHeaders _ :: t => writesPrecedeHijack true st bod t
  | .writeStatus _ :: t => writesPrecedeHijack hdr true bod t
  | .writeBody :: t => writesPrecedeHijack hdr st true t
  | .hijack :: t => hdr && st && bod && writesPrecedeHijack hdr st bod t
  | _ :: t => writesPrecedeHijack hdr st bod t

/-- Whether an action is the normal-forward path (the transport
collaborator's `RoundTrip` is invoked). -/
def Action.isForward : Action → Bool
  | .forward _ => true
  | _ => false

/-- Whether an action is a local loopback or local status response (no
dial and no transport call occur). -/
def Action.isLocal : Action → Bool
  | .respond _ => true
  | .traceLoopback _ => true
  | .optionsLoopback _ => true
  | _ => false

/-- Follows the words of claim C4 (for comparison with the code): infer
`https` when the local listener is TLS-terminating, otherwise `https` when
the port used by the REMOTE PEER is `443`, otherwise `http`. -/
def schemeFromPeerPort (localAddr remotePeerAddr : String) : String :=
  if (splitNetAddr localAddr).1 = "tls" then "https"
  else if portOf remotePeerAddr = "443" then "https"
  else "http"

/-- The amended form of claim C4, following the code: infer `https` when
the local listener is TLS-terminating, otherwise `https` when the port of
the inbound request URL host is `443`, otherwise `http` (for port `80`, an
empty or missing port, or any other port). -/
def schemeFromURLPort (localAddr urlHost : String) : String :=
  if (splitNetAddr localAddr).1 = "tls" then "https"
  else if portOf urlHost = "443" then "https"
  else "http"

/-- The outcome of the `serveTRACE` loopback (`src/httpx/proxy.go` lines
215–223): a response with status, `Content-Type` and body, or an abrupt
termination (`panic`). -/
inductive TraceResult where
  | response (status : Nat) (contentType : String) (body : String)
  | panicked
  deriving Repr, DecidableEq

/-- The control flow of `serveTRACE` (`src/httpx/proxy.go` lines 215–223),
parameterised by the outcome of `httputil.DumpRequest` on the outbound
request: on a dump error the handler panics (line 218); otherwise it writes
a 200 with `Content-Type: message/http` and the dump as body. -/
def serveTRACE (dump : Except Unit String) : TraceResult :=
  match dump with
  | .error _ => .panicked
  | .ok content => .response 200 "message/http" content

/-! ### Concrete requests and responses used as test vectors -/

/-- A TRACE request carrying `Max-Forwards: 5`, addressed to a backend. -/
def reqMaxFwd5 : Request :=
  { method := "TRACE"
    url := { scheme := "http", host := "backend.example:8080" }
    host := "backend.example:8080"
    header := [("Max-Forwards", ["5"])]
    remoteAddr := "10.0.0.1:55555"
    localAddr := "127.0.0.1:3128" }

/-- A TRACE request carrying `Max-Forwards: 0`. -/
def reqMaxFwd0 : Request :=
  { reqMaxFwd5 with header := [("Max-Forwards", ["0"])] }

/-- A request with no host anywhere: URL host and `Host` field empty. -/
def reqNoHost : Request :=
  { method := "GET"
    url := { scheme := "http", host := "" }
    host := ""
    header := []
    remoteAddr := "10.0.0.1:55555"
    localAddr := "127.0.0.1:3128" }

/-- A request with an empty URL scheme whose URL host carries port 8080
while the remote peer uses port 443, on a non-TLS listener: the peer port
and the URL port disagree, separating the two scheme-inference readings. -/
def reqSchemeGuess : Request :=
  { method := "GET"
    url := { scheme := "", host := "example.com:8080" }
    host := "example.com:8080"
    header := []
    remoteAddr := "10.0.0.1:443"
    localAddr := "127.0.0.1:80" }

/-- A request whose `Connection` header lists `Via`, making `Via` a
hop-by-hop name, while a `Via` header is present inbound. -/
def reqConnVia : Request :=
  { method := "GET"
    url := { scheme := "http", host := "backend.example:80" }
    host := "backend.example:80"
    header := [("Connection", ["Via"]), ("Via", ["1.0 upstream"])]
    remoteAddr := "10.0.0.1:55555"
    localAddr := "127.0.0.1:3128" }

/-- A plain GET request carrying a legacy `X-Forwarded-For` header and no
`Forwarded` header. -/
def reqLegacyFwd : Request :=
  { method := "GET"
    url := { scheme := "http", host := "backend.example:80" }
    host := "backend.example:80"
    header := [("X-Forwarded-For", ["192.0.2.7"])]
    remoteAddr := "10.0.0.1:55555"
    localAddr := "127.0.0.1:3128" }

/-- A TRACE request with no `Max-Forwards` header: the guard answers it
locally. -/
def reqTraceLoop : Request :=
  { method := "TRACE"
    url := { scheme := "http", host := "backend.example:8080" }
    host := "backend.example:8080"
    header := [("Connection", ["Keep-Alive"]), ("Keep-Alive", ["timeout=5"])]
    remoteAddr := "10.0.0.1:55555"
    localAddr := "127.0.0.1:3128" }

/-- A backend response to an upgrade request that does not switch
protocols: status 200 with an ordinary header. -/
def res200 : UResp :=
  { status := 200, header := [("Content-Type", ["text/plain"])] }

/-- A backend response header collection carrying a hop-by-hop field. -/
def resHopHeader : Header :=
  [("Transfer-Encoding", ["chunked"]), ("Content-Type", ["text/plain"])]

/-! ### Lemmas about the header operations -/

namespace Header

theorem getAll_add_self (h : Header) (k v : String) :
    getAll (add h k v) k = getAll h k ++ [v] := by
  induction h with
  | nil => simp [add, getAll]
  | cons kv t ih =>
      obtain ⟨k', vs⟩ := kv
      by_cases hk : k' = k
      · subst hk; simp [add, getAll]
      · simp [add, getAll, hk, ih]

theorem getAll_add_ne (h : Header) (k v n : String) (hne : k ≠ n) :
    getAll (add h k v) n = getAll h n := by
  induction h with
  | nil => simp [add, getAll, hne]
  | cons kv t ih =>
      obtain ⟨k', vs⟩ := kv
      by_cases hk : k' = k
      · subst hk
        simp [add, getAll, hne]
      · by_cases hn : k' = n
        · subst hn
          simp [add, getAll, hk]
        · simp [add, getAll, hk, hn, ih]

theorem hasKey_add_iff (h : Header) (k v n : String) :
    hasKey (add h k v) n = true ↔ (hasKey h n = true ∨ n = k) := by
  induction h with
  | nil => simp [add, hasKey, eq_comm]
  | cons kv t ih =>
      obtain ⟨k', vs⟩ := kv
      by_cases hk : k' = k
      · subst hk
        by_cases hn : k' = n
        · subst hn
          simp [add, hasKey]
        · simp [add, hasKey, hn, Ne.symm hn]
      · by_cases hn : k' = n
        · subst hn
          simp [add, hasKey, hk]
        · simp [add, hasKey, hk, hn, ih]

theorem hasKey_add_self (h : Header) (k v : String) :
    hasKey (add h k v) k = true :=
  (hasKey_add_iff h k v k).mpr (Or.inr rfl)

theorem hasKey_add_mono (h : Header) (k v n : String)
    (hn : hasKey h n = true) : hasKey (add h k v) n = true :=
  (hasKey_add_iff h k v n).mpr (Or.inl hn)

theorem hasKey_append (a b : Header) (n : String) :
    hasKey (a ++ b) n = (hasKey a n || hasKey b n) := by
  induction a with
  | nil => simp [hasKey]
  | cons kv t ih =>
      obtain ⟨k', vs⟩ := kv
      by_cases hn : k' = n
      · simp [hasKey, hn]
      · simp [hasKey, hn, ih]

theorem hasKey_del_self (h : Header) (k : String) :
    hasKey (del h k) k = false := by
  induction h with
  | nil => rfl
  | cons kv t ih =>
      obtain ⟨k', vs⟩ := kv
      by_cases hk : k' = k
      · subst hk
        simpa [del, List.filter_cons] using ih
      · simpa [del, List.filter_cons, hk, hasKey] using ih

theorem hasKey_del_ne (h : Header) (k n : String) (hne : n ≠ k) :
    hasKey (del h k) n = hasKey h n := by
  induction h with
  | nil => rfl
  | cons kv t ih =>
      obtain ⟨k', vs⟩ := kv
      by_cases hk : k' = k
      · subst hk
        have hn : ¬ k' = n := fun e => hne e.symm
        simpa [del, List.filter_cons, hasKey, hn] using ih
      · simpa [del, List.filter_cons, hk, hasKey] using
          congrArg (fun b => (decide (k' = n) || b)) ih

theorem hasKey_setVals_iff (h : Header) (k : String) (vs : List String)
    (n : String) :
    hasKey (setVals h k vs) n = true ↔ (hasKey h n = true ∨ n = k) := by
  unfold setVals
  rw [hasKey_append]
  by_cases hn : n = k
  · subst hn
    simp [hasKey, hasKey_del_self]
  · rw [hasKey_del_ne h k n hn]
    simp [hasKey, hn, Ne.symm hn]

theorem hasKey_set_iff (h : Header) (k v n : String) :
    hasKey (set h k v) n = true ↔ (hasKey h n = true ∨ n = k) :=
  hasKey_setVals_iff h k [v] n

theorem getAll_eq_nil_of_not_hasKey (h : Header) (n : String)
    (hn : hasKey h n = false) : getAll h n = [] := by
  induction h with
  | nil => rfl
  | cons kv t ih =>
      obtain ⟨k', vs⟩ := kv
      by_cases hk : k' = n
      · simp [hasKey, hk] at hn
      · simp [hasKey, hk] at hn
        simp [getAll, hk, ih hn]

theorem getAll_append (a b : Header) (n : String) :
    getAll (a ++ b) n = if hasKey a n then getAll a n else getAll b n := by
  induction a with
  | nil => simp [getAll, hasKey]
  | cons kv t ih =>
      obtain ⟨k', vs⟩ := kv
      by_cases hn : k' = n
      · subst hn
        simp [getAll, hasKey]
      · simp [getAll, hasKey, hn, ih]

theorem getAll_del_ne (h : Header) (k n : String) (hne : n ≠ k) :
    getAll (del h k) n = getAll h n := by
  induction h with
  | nil => rfl
  | cons kv t ih =>
      obtain ⟨k', vs⟩ := kv
      by_cases hk : k' = k
      · subst hk
        have hn : ¬ k' = n := fun e => hne e.symm
        simpa [del, List.filter_cons, getAll, hn] using ih
      · by_cases hn : k' = n
        · subst hn
          simp [del, List.filter_cons, hk, getAll]
        · simpa [del, List.filter_cons, hk, getAll, hn] using ih

theorem getAll_set_ne (h : Header) (k v n : String) (hne : n ≠ k) :
    getAll (set h k v) n = getAll h n := by
  unfold set
  rw [getAll_append, hasKey_del_ne h k n hne, getAll_del_ne h k n hne]
  by_cases hk : hasKey h n = true
  · simp [hk]
  · have h1 : getAll h n = [] :=
      getAll_eq_nil_of_not_hasKey h n (Bool.eq_false_iff.mpr hk)
    simp [hk, getAll, Ne.symm hne, h1]

theorem hasKey_filter_false (h : Header) (p : String × List String → Bool)
    (n : String) (hp : ∀ vs, p (n, vs) = false) :
    hasKey (h.filter p) n = false := by
  induction h with
  | nil => rfl
  | cons kv t ih =>
      obtain ⟨k', vs⟩ := kv
      by_cases hpk : p (k', vs) = true
      · have hk : ¬ k' = n := by
          intro e
          rw [e, hp vs] at hpk
          exact Bool.false_ne_true hpk
        simp [List.filter_cons, hpk, hasKey, hk, ih]
      · simp [List.filter_cons, Bool.eq_false_iff.mpr hpk, ih]

end Header

/-! ### Lemmas about header normalization and the dispatch pipeline -/

/-- A hop-by-hop name (fixed set or Connection-listed) never survives
`deleteHopFields`. -/
theorem hasKey_deleteHopFields (h : Header) (n : String)
    (hn : (hopFieldNames h).contains n = true) :
    Header.hasKey (deleteHopFields h) n = false := by
  apply Header.hasKey_filter_false
  intro vs
  have hn' : n ∈ hopFieldNames h := by simpa using hn
  simp [hn']

/-- `translateXForwarded` introduces at most the key `Forwarded`. -/
theorem hasKey_translateXForwarded (h : Header) (n : String)
    (hk : Header.hasKey (translateXForwarded h) n = true) :
    Header.hasKey h n = true ∨ n = "Forwarded" := by
  unfold translateXForwarded at hk
  split at hk
  · exact Or.inl hk
  · exact (Header.hasKey_add_iff h "Forwarded" _ n).mp hk

/-- A key of the fully injected header pipeline is either a key of the
hop-stripped copy, or one of the injected names `Forwarded` and `Via`. -/
theorem hasKey_injectedHeaders (req : Request) (scheme n : String)
    (hk : Header.hasKey (injectedHeaders req scheme) n = true) :
    Header.hasKey (deleteHopFields (copyHeader req.header)) n = true
      ∨ n = "Forwarded" ∨ n = "Via" := by
  unfold injectedHeaders addVia addForwarded at hk
  rcases (Header.hasKey_add_iff _ "Via" _ n).mp hk with hk2 | hv
  · rcases (Header.hasKey_add_iff _ "Forwarded" _ n).mp hk2 with hk3 | hf
    · split at hk3
      · exact Or.inl hk3
      · rcases hasKey_translateXForwarded _ n hk3 with h1 | h1
        · exact Or.inl h1
        · exact Or.inr (Or.inl h1)
    · exact Or.inr (Or.inl hf)
  · exact Or.inr (Or.inr hv)

/-- The injected pipeline always carries a `Via` key. -/
theorem injectedHeaders_hasKey_Via (req : Request) (scheme : String) :
    Header.hasKey (injectedHeaders req scheme) "Via" = true :=
  Header.hasKey_add_self _ "Via" _

/-- The injected pipeline always carries a `Forwarded` key. -/
theorem injectedHeaders_hasKey_Forwarded (req : Request) (scheme : String) :
    Header.hasKey (injectedHeaders req scheme) "Forwarded" = true :=
  Header.hasKey_add_mono _ "Via" _ "Forwarded"
    (Header.hasKey_add_self _ "Forwarded" _)

/-- The `Forwarded` values of the injected pipeline: the hop-stripped
copy's own `Forwarded` values when that key is present (the legacy headers
are not consulted), the values synthesized from the legacy `X-Forwarded-*`
headers otherwise — in both cases extended by exactly one fresh hop for
this proxy. -/
theorem injectedHeaders_getAll_Forwarded (req : Request) (scheme : String) :
    Header.getAll (injectedHeaders req scheme) "Forwarded" =
      (if Header.hasKey (deleteHopFields (copyHeader req.header)) "Forwarded"
       then Header.getAll (deleteHopFields (copyHeader req.header)) "Forwarded"
       else Header.getAll (translateXForwarded
              (deleteHopFields (copyHeader req.header))) "Forwarded")
      ++ [forwardedEntry scheme req.remoteAddr req.localAddr] := by
  unfold injectedHeaders addVia addForwarded
  rw [Header.getAll_add_ne _ "Via" _ "Forwarded" (by decide),
      Header.getAll_add_self]
  split
  · rfl
  · rfl

/-- The possible results of the Max-Forwards guard: the outbound request
unchanged, or the outbound request with `Max-Forward` set. -/
theorem maxForwardsGuard_shape (out out' : Request)
    (h : maxForwardsGuard out = some out') :
    out' = out
      ∨ ∃ v, out' = { out with header := Header.set out.header "Max-Forward" v } := by
  unfold maxForwardsGuard at h
  split at h
  · split at h
    · exact absurd h (by simp)
    · split at h
      · exact absurd h (by simp)
      · exact Or.inr ⟨_, (Option.some_inj.mp h).symm⟩
  · exact Or.inl (Option.some_inj.mp h).symm

/-- Every outbound request produced by `serveHTTP` is the normalized
request, possibly with `Max-Forward` set by the guard, possibly with the
upgrade headers set on top. -/
theorem serveHTTP_out_shape (req out : Request)
    (hout : (serveHTTP req).outreq? = some out) :
    ∃ mid : Request,
      (mid = normalizedRequest req
        ∨ ∃ v, mid = { normalizedRequest req with
                       header := Header.set (normalizedRequest req).header
                                   "Max-Forward" v })
      ∧ (out = mid ∨ ∃ u, out = setUpgradeHeaders mid u) := by
  simp only [serveHTTP] at hout
  split at hout
  · simp [Action.outreq?] at hout
  · split at hout
    · simp [Action.outreq?] at hout
      exact ⟨normalizedRequest req, Or.inl rfl, Or.inl hout.symm⟩
    · split at hout
      · split at hout <;> simp [Action.outreq?] at hout <;>
          exact ⟨normalizedRequest req, Or.inl rfl, Or.inl hout.symm⟩
      · rename_i out' hguard
        split at hout <;> simp [Action.outreq?] at hout
        · rcases maxForwardsGuard_shape _ _ hguard with hmid | ⟨v, hmid⟩
          · exact ⟨normalizedRequest req, Or.inl rfl,
              Or.inr ⟨_, by rw [← hout, hmid]⟩⟩
          · exact ⟨_, Or.inr ⟨v, hmid⟩, Or.inr ⟨_, hout.symm⟩⟩
        · rcases maxForwardsGuard_shape _ _ hguard with hmid | ⟨v, hmid⟩
          · exact ⟨normalizedRequest req, Or.inl rfl, Or.inl (by rw [← hout, hmid])⟩
          · exact ⟨_, Or.inr ⟨v, hmid⟩, Or.inl hout.symm⟩

/-- `guessScheme` agrees with the URL-port reading of the scheme
inference. -/
theorem guessScheme_eq_schemeFromURLPort (l h : String) :
    guessScheme l h = schemeFromURLPort l h := by
  simp only [guessScheme, schemeFromURLPort]
  split
  · rfl
  · by_cases h443 : portOf h = "443"
    · rw [h443]
      decide
    · by_cases h80 : portOf h = "" ∨ portOf h = "80"
      · rcases h80 with h80 | h80 <;> rw [h80] <;> decide
      · simp [h443, h80]

/-- The URL, protocol and method of every outbound request produced by
`serveHTTP`: only the headers are touched after normalization. -/
theorem serveHTTP_out_fields (req out : Request)
    (hout : (serveHTTP req).outreq? = some out) :
    out.url = (normalizedRequest req).url ∧ out.proto = "HTTP/1.1"
      ∧ out.method = req.method := by
  obtain ⟨mid, hmid, hout2⟩ := serveHTTP_out_shape req out hout
  have hm : mid.url = (normalizedRequest req).url ∧ mid.proto = "HTTP/1.1"
      ∧ mid.method = req.method := by
    rcases hmid with rfl | ⟨v, rfl⟩
    · exact ⟨rfl, rfl, rfl⟩
    · exact ⟨rfl, rfl, rfl⟩
  rcases hout2 with rfl | ⟨u, rfl⟩
  · exact hm
  · exact ⟨hm.1, hm.2.1, hm.2.2⟩

/-- The `Forwarded` values of every outbound request produced by
`serveHTTP` are exactly those of the injected pipeline: the guard and the
upgrade rewrite only touch other keys. -/
theorem serveHTTP_out_getAll_Forwarded (req out : Request)
    (hout : (serveHTTP req).outreq? = some out) :
    Header.getAll out.header "Forwarded" =
      Header.getAll (injectedHeaders req (resolvedScheme req)) "Forwarded" := by
  obtain ⟨mid, hmid, hout2⟩ := serveHTTP_out_shape req out hout
  have hm : Header.getAll mid.header "Forwarded" =
      Header.getAll (injectedHeaders req (resolvedScheme req)) "Forwarded" := by
    rcases hmid with rfl | ⟨v, rfl⟩
    · rfl
    · exact Header.getAll_set_ne _ "Max-Forward" _ "Forwarded" (by decide)
  rcases hout2 with rfl | ⟨u, rfl⟩
  · exact hm
  · show Header.getAll
        (Header.set (Header.set mid.header "Connection" "Upgrade") "Upgrade" u)
        "Forwarded" = _
    rw [Header.getAll_set_ne _ "Upgrade" _ "Forwarded" (by decide),
        Header.getAll_set_ne _ "Connection" _ "Forwarded" (by decide), hm]

/-- A key of any outbound request produced by `serveHTTP` is a key of the
injected pipeline or one of the keys written afterwards. -/
theorem serveHTTP_out_hasKey (req out : Request) (n : String)
    (hout : (serveHTTP req).outreq? = some out)
    (hk : Header.hasKey out.header n = true) :
    Header.hasKey (injectedHeaders req (resolvedScheme req)) n = true
      ∨ n = "Max-Forward" ∨ n = "Connection" ∨ n = "Upgrade" := by
  obtain ⟨mid, hmid, hout2⟩ := serveHTTP_out_shape req out hout
  have hmto : ∀ m : String, Header.hasKey mid.header m = true →
      Header.hasKey (injectedHeaders req (resolvedScheme req)) m = true
        ∨ m = "Max-Forward" := by
    intro m hkm
    rcases hmid with rfl | ⟨v, rfl⟩
    · exact Or.inl hkm
    · rcases (Header.hasKey_set_iff _ "Max-Forward" _ m).mp hkm with h1 | h1
      · exact Or.inl h1
      · exact Or.inr h1
  rcases hout2 with rfl | ⟨u, rfl⟩
  · rcases hmto n hk with h1 | h1
    · exact Or.inl h1
    · exact Or.inr (Or.inl h1)
  · replace hk : Header.hasKey
        (Header.set (Header.set mid.header "Connection" "Upgrade") "Upgrade" u)
        n = true := hk
    rcases (Header.hasKey_set_iff _ "Upgrade" _ n).mp hk with h1 | h1
    · rcases (Header.hasKey_set_iff _ "Connection" _ n).mp h1 with h2 | h2
      · rcases hmto n h2 with h3 | h3
        · exact Or.inl h3
        · exact Or.inr (Or.inl h3)
      · exact Or.inr (Or.inr (Or.inl h2))
    · exact Or.inr (Or.inr (Or.inr h1))

/-- `serveHTTP` answers a TRACE loopback with exactly the normalized
outbound request. -/
theorem serveHTTP_traceLoopback_eq (req out : Request)
    (h : serveHTTP req = Action.traceLoopback out) :
    out = normalizedRequest req := by
  simp only [serveHTTP] at h
  split at h
  · exact absurd h (by simp)
  · split at h
    · exact absurd h (by simp)
    · split at h
      · split at h
        · injection h with h2
          exact h2.symm
        · exact absurd h (by simp)
      · split at h <;> exact absurd h (by simp)

/-! ### The claims -/

/-- C1: the claim fails on the code.  For the TRACE request `reqMaxFwd5`
with `Max-Forwards: 5` the request is forwarded, but the decremented value
4 is written under the key `Max-Forward` (`proxy.go` line 117), while the
outbound `Max-Forwards` header still carries the undecremented value 5 —
the claim expects the outbound `Max-Forwards` header to carry 4. -/
theorem maxForwards_written_to_wrong_key :
    Action.isForward (serveHTTP reqMaxFwd5) = true
    ∧ (Action.outreq? (serveHTTP reqMaxFwd5)).map
        (fun o => (Header.getAll o.header "Max-Forwards",
                   Header.getAll o.header "Max-Forward")) =
      some (["5"], ["4"]) :=
  ⟨by decide, by decide⟩

/-- C2: the claim fails on the code.  The TRACE request `reqMaxFwd0` with
`Max-Forwards: 0` is NOT answered locally: the value decrements to -1,
which the guard condition `max == 0` does not catch (`proxy.go` line 109),
so the request is forwarded with `Max-Forward: -1` — the claim expects a
local 200 with no dial. -/
theorem maxForwardsZero_is_forwarded :
    Action.isForward (serveHTTP reqMaxFwd0) = true
    ∧ Action.isLocal (serveHTTP reqMaxFwd0) = false
    ∧ (Action.outreq? (serveHTTP reqMaxFwd0)).map
        (fun o => Header.getAll o.header "Max-Forward") = some ["-1"] :=
  ⟨by decide, by decide, by decide⟩

/-- C3: a request whose resolved outbound host (the request URL host,
defaulted from the inbound `Host` field) is empty is answered with a local
400; the resulting action carries no outbound request, so neither the
dialer nor the transport collaborator is invoked. -/
theorem emptyHost_responds400 (req : Request)
    (h : resolvedHost req = "") : serveHTTP req = Action.respond 400 := by
  simp [serveHTTP, h]

theorem emptyHost_responds400_witness :
    resolvedHost reqNoHost = "" ∧ serveHTTP reqNoHost = Action.respond 400 :=
  ⟨by decide, emptyHost_responds400 reqNoHost (by decide)⟩

/-- C4, counterexample: for `reqSchemeGuess` (empty URL scheme, URL host
port 8080, remote peer port 443, non-TLS listener) the code infers `http`,
while the claim reads the remote peer port and predicts `https`: the
claim as stated is false. -/
theorem schemeFromPeerPort_refuted :
    ¬ ((Action.outreq? (serveHTTP reqSchemeGuess)).map (fun o => o.url.scheme)
        = some (schemeFromPeerPort reqSchemeGuess.localAddr
                  reqSchemeGuess.remoteAddr))
    ∧ (Action.outreq? (serveHTTP reqSchemeGuess)).map (fun o => o.url.scheme)
        = some "http"
    ∧ schemeFromPeerPort reqSchemeGuess.localAddr reqSchemeGuess.remoteAddr
        = "https" :=
  ⟨by decide, by decide, by decide⟩

/-- C4, amended: for every inbound request with an empty URL scheme, the
outbound scheme is `https` when the local listener is TLS-terminating,
otherwise `https` when the port of the inbound request URL host is 443,
otherwise `http` (for port 80, a missing port, or any other port). -/
theorem scheme_inference_uses_url_port (req out : Request)
    (hs : req.url.scheme = "")
    (hout : (serveHTTP req).outreq? = some out) :
    out.url.scheme = schemeFromURLPort req.localAddr req.url.host := by
  have hf := (serveHTTP_out_fields req out hout).1
  have h2 : out.url.scheme = resolvedScheme req := by
    rw [hf]
    rfl
  rw [h2]
  unfold resolvedScheme
  rw [if_pos hs, guessScheme_eq_schemeFromURLPort]

theorem scheme_inference_uses_url_port_witness :
    reqSchemeGuess.url.scheme = ""
    ∧ (serveHTTP reqSchemeGuess).outreq?
        = some (normalizedRequest reqSchemeGuess)
    ∧ (normalizedRequest reqSchemeGuess).url.scheme =
        schemeFromURLPort reqSchemeGuess.localAddr reqSchemeGuess.url.host :=
  ⟨by decide, by decide,
   scheme_inference_uses_url_port reqSchemeGuess (normalizedRequest reqSchemeGuess)
     (by decide) (by decide)⟩

/-- C5: for every outbound request produced by `serveHTTP`, the final
`Forwarded` values are: the (copied, hop-stripped) inbound `Forwarded`
values when that key is present (the legacy `X-Forwarded-*` headers are
not consulted), the values synthesized from the legacy headers when it is
absent — and in both cases exactly one fresh hop for this proxy is
appended at the end. -/
theorem forwarded_synthesis_exclusive (req out : Request)
    (hout : (serveHTTP req).outreq? = some out) :
    Header.getAll out.header "Forwarded" =
      (if Header.hasKey (deleteHopFields (copyHeader req.header)) "Forwarded"
       then Header.getAll (deleteHopFields (copyHeader req.header)) "Forwarded"
       else Header.getAll (translateXForwarded
              (deleteHopFields (copyHeader req.header))) "Forwarded")
      ++ [forwardedEntry (resolvedScheme req) req.remoteAddr req.localAddr] := by
  rw [serveHTTP_out_getAll_Forwarded req out hout,
      injectedHeaders_getAll_Forwarded]

theorem forwarded_synthesis_exclusive_witness :
    (serveHTTP reqLegacyFwd).outreq? = some (normalizedRequest reqLegacyFwd)
    ∧ Header.getAll (normalizedRequest reqLegacyFwd).header "Forwarded" =
      (if Header.hasKey (deleteHopFields (copyHeader reqLegacyFwd.header))
            "Forwarded"
       then Header.getAll (deleteHopFields (copyHeader reqLegacyFwd.header))
            "Forwarded"
       else Header.getAll (translateXForwarded
              (deleteHopFields (copyHeader reqLegacyFwd.header))) "Forwarded")
      ++ [forwardedEntry (resolvedScheme reqLegacyFwd) reqLegacyFwd.remoteAddr
            reqLegacyFwd.localAddr] :=
  ⟨by decide,
   forwarded_synthesis_exclusive reqLegacyFwd (normalizedRequest reqLegacyFwd)
     (by decide)⟩

/-- C6, counterexample: `Via` is a hop-by-hop name of `reqConnVia` (listed
in its `Connection` header) and is present on the inbound headers, yet the
outbound request of the plain forward path (not the upgrade exception)
carries a `Via` key — the proxy re-appends its own `Via` entry after
stripping, so the claim as stated is false. -/
theorem hopByHop_reintroduced_via :
    (hopFieldNames reqConnVia.header).contains "Via" = true
    ∧ Header.hasKey reqConnVia.header "Via" = true
    ∧ Action.isForward (serveHTTP reqConnVia) = true
    ∧ (Action.outreq? (serveHTTP reqConnVia)).map
        (fun o => Header.hasKey o.header "Via") = some true :=
  ⟨by decide, by decide, by decide, by decide⟩

/-- C6, amended: every hop-by-hop name of the inbound request (fixed set
plus `Connection`-listed names) is stripped from the outbound headers, and
the only such names the proxy can reintroduce afterwards are its own
injected `Forwarded`, `Via` and `Max-Forward` headers plus, on the upgrade
path, `Connection` and `Upgrade`; response headers and trailers are
stripped of the response's own hop-by-hop names before reaching the
client, with only `Upgrade`/`Connection: Upgrade` re-added on the upgrade
path. -/
theorem hopByHop_stripping :
    (∀ req out n, (serveHTTP req).outreq? = some out →
        (hopFieldNames req.header).contains n = true →
        Header.hasKey out.header n = true →
        n = "Forwarded" ∨ n = "Via" ∨ n = "Max-Forward"
          ∨ n = "Connection" ∨ n = "Upgrade")
    ∧ (∀ resHeader n, (hopFieldNames resHeader).contains n = true →
        Header.hasKey (forwardResponseHeaders resHeader) n = false)
    ∧ (∀ resHeader n, (hopFieldNames resHeader).contains n = true →
        Header.hasKey (upgradeResponseHeaders resHeader) n = true →
        n = "Upgrade" ∨ n = "Connection") := by
  refine ⟨?_, ?_, ?_⟩
  · intro req out n hout hcon hk
    rcases serveHTTP_out_hasKey req out n hout hk with h1 | h1 | h1 | h1
    · rcases hasKey_injectedHeaders req _ n h1 with h2 | h2 | h2
      · rw [hasKey_deleteHopFields (copyHeader req.header) n hcon] at h2
        exact absurd h2 (by simp)
      · exact Or.inl h2
      · exact Or.inr (Or.inl h2)
    · exact Or.inr (Or.inr (Or.inl h1))
    · exact Or.inr (Or.inr (Or.inr (Or.inl h1)))
    · exact Or.inr (Or.inr (Or.inr (Or.inr h1)))
  · intro resHeader n hcon
    exact hasKey_deleteHopFields resHeader n hcon
  · intro resHeader n hcon hk
    simp only [upgradeResponseHeaders] at hk
    split at hk
    · rw [hasKey_deleteHopFields resHeader n hcon] at hk
      exact absurd hk (by simp)
    · rcases (Header.hasKey_setVals_iff _ "Connection" _ n).mp hk with h1 | h1
      · rcases (Header.hasKey_setVals_iff _ "Upgrade" _ n).mp h1 with h2 | h2
        · rw [hasKey_deleteHopFields resHeader n hcon] at h2
          exact absurd h2 (by simp)
        · exact Or.inl h2
      · exact Or.inr h1

theorem hopByHop_stripping_witness :
    (hopFieldNames resHopHeader).contains "Transfer-Encoding" = true
    ∧ Header.hasKey (forwardResponseHeaders resHopHeader)
        "Transfer-Encoding" = false :=
  ⟨by decide,
   hopByHop_stripping.2.1 resHopHeader "Transfer-Encoding" (by decide)⟩

/-- C7: on the upgrade path with a non-101 backend response, the event
trace is exactly dial, response relay (headers, status, body), close
backend: the response is relayed to the client, no hijack of the client
connection occurs, no tunnel session is created, and the dedicated backend
connection is closed as the last event of the exchange. -/
theorem upgrade_non101_no_tunnel (res : UResp) (hijackOk flushOk : Bool)
    (h : res.status ≠ 101) :
    serveUpgrade true (some res) hijackOk flushOk =
      [UEvent.dial, UEvent.writeHeaders (upgradeResponseHeaders res.header),
       UEvent.writeStatus res.status, UEvent.writeBody, UEvent.closeBackend]
    ∧ UEvent.hijack ∉ serveUpgrade true (some res) hijackOk flushOk
    ∧ UEvent.tunnel ∉ serveUpgrade true (some res) hijackOk flushOk := by
  have he : serveUpgrade true (some res) hijackOk flushOk =
      [UEvent.dial, UEvent.writeHeaders (upgradeResponseHeaders res.header),
       UEvent.writeStatus res.status, UEvent.writeBody, UEvent.closeBackend] := by
    simp [serveUpgrade, h]
  refine ⟨he, ?_, ?_⟩ <;> rw [he] <;> simp

theorem upgrade_non101_no_tunnel_witness :
    res200.status ≠ 101
    ∧ serveUpgrade true (some res200) true true =
      [UEvent.dial, UEvent.writeHeaders (upgradeResponseHeaders res200.header),
       UEvent.writeStatus res200.status, UEvent.writeBody, UEvent.closeBackend]
    ∧ UEvent.tunnel ∉ serveUpgrade true (some res200) true true :=
  ⟨by decide, (upgrade_non101_no_tunnel res200 true true (by decide)).1,
   (upgrade_non101_no_tunnel res200 true true (by decide)).2.2⟩

/-- C8: in every upgrade event trace, any hijack of the client connection
is strictly preceded by the header write, the status write and the body
write of the client-visible response: the response is fully written before
any takeover attempt. -/
theorem upgrade_writes_precede_hijack (dialOk : Bool) (rt : Option UResp)
    (hijackOk flushOk : Bool) :
    writesPrecedeHijack false false false
      (serveUpgrade dialOk rt hijackOk flushOk) = true := by
  cases dialOk with
  | false => simp [serveUpgrade, writesPrecedeHijack]
  | true =>
      cases rt with
      | none => simp [serveUpgrade, writesPrecedeHijack]
      | some res =>
          by_cases h : res.status = 101
          · cases hijackOk <;> cases flushOk <;>
              simp [serveUpgrade, h, writesPrecedeHijack]
          · simp [serveUpgrade, h, writesPrecedeHijack]

/-- C9: the claim fails on the code.  When `httputil.DumpRequest` fails,
`serveTRACE` terminates abruptly (`proxy.go` line 218) rather than
producing any response at all — in particular not the clean 500 the claim
requires. -/
theorem traceDumpFailure_is_abrupt :
    serveTRACE (Except.error ()) = TraceResult.panicked
    ∧ ∀ status contentType body,
        serveTRACE (Except.error ())
          ≠ TraceResult.response status contentType body :=
  ⟨rfl, fun _ _ _ h => TraceResult.noConfusion h⟩

/-- C10: the TRACE loopback dumps the normalized outbound request, not the
raw inbound one: its protocol is pinned to HTTP/1.1, the proxy's injected
`Forwarded` and `Via` keys are present, and every hop-by-hop name of the
inbound request is absent from it except the injected `Forwarded` and
`Via`. -/
theorem traceLoopback_dumps_normalized (req out : Request)
    (hout : serveHTTP req = Action.traceLoopback out) :
    out.proto = "HTTP/1.1"
    ∧ Header.hasKey out.header "Forwarded" = true
    ∧ Header.hasKey out.header "Via" = true
    ∧ ∀ n, (hopFieldNames req.header).contains n = true →
        Header.hasKey out.header n = true → n = "Forwarded" ∨ n = "Via" := by
  have he := serveHTTP_traceLoopback_eq req out hout
  subst he
  refine ⟨rfl, injectedHeaders_hasKey_Forwarded req _,
    injectedHeaders_hasKey_Via req _, ?_⟩
  intro n hcon hk
  rcases hasKey_injectedHeaders req _ n hk with h1 | h1 | h1
  · rw [hasKey_deleteHopFields (copyHeader req.header) n hcon] at h1
    exact absurd h1 (by simp)
  · exact Or.inl h1
  · exact Or.inr h1

theorem traceLoopback_dumps_normalized_witness :
    serveHTTP reqTraceLoop
        = Action.traceLoopback (normalizedRequest reqTraceLoop)
    ∧ (normalizedRequest reqTraceLoop).proto = "HTTP/1.1"
    ∧ Header.hasKey (normalizedRequest reqTraceLoop).header "Via" = true :=
  ⟨by decide,
   (traceLoopback_dumps_normalized reqTraceLoop (normalizedRequest reqTraceLoop)
     (by decide)).1,
   (traceLoopback_dumps_normalized reqTraceLoop (normalizedRequest reqTraceLoop)
     (by decide)).2.2.1⟩

end Httpx
